import Mathlib

/-!
Verification of the Nifty-50 dashboard's indicator-and-scoring engine
(`utils.py`: `calculate_indicators`, `score_stock`, `classify_signal`,
`compute_future_potential`, `send_telegram_message`, the percent-change
metric inside `fetch_and_analyze`) and of the portfolio buy/sell handlers
(`main.py`).

Modelling conventions:
* Machine floats are modelled as rationals (`ℚ`).  A value that Python
  represents as `NaN` (an undefined indicator) is `Option.none`; every
  comparison against `none` is `false`, exactly as every IEEE comparison
  against `NaN` is `False`.  Frames produced by `calculate_indicators`
  always carry every column, so a missing value and a `NaN` value
  coincide in this model; in `score_stock` both paths provably yield the
  same points (a `KeyError` lands in the enclosing `except: pass`, a
  `NaN` makes the guarding comparison `False`), so the model is faithful
  on all inputs the claims range over.
* A Python function that can raise on some input is modelled with an
  `Option` result, `none` standing for the raised exception.
* Python `dict`s keyed by strings are association lists updated in
  place (`dict_insert`), preserving insertion order like CPython.
-/

namespace Nifty

/-- One row of the indicator frame: the OHLCV columns plus the fourteen
indicator columns that `calculate_indicators` guarantees to exist.  The
`open` column is called `openv` (`open` is a keyword).  `none` models
`NaN`. -/
structure Snapshot where
  openv : Option ℚ
  high : Option ℚ
  low : Option ℚ
  close : Option ℚ
  volume : Option ℚ
  ema20 : Option ℚ
  ema50 : Option ℚ
  rsi : Option ℚ
  macd : Option ℚ
  macd_hist : Option ℚ
  bb_high : Option ℚ
  bb_low : Option ℚ
  atr : Option ℚ
  adx : Option ℚ
  obv : Option ℚ
  roc : Option ℚ
  stoch_rsi : Option ℚ
  vwap : Option ℚ
  vol_avg_20 : Option ℚ
deriving DecidableEq

/-- A snapshot with every field `NaN`. -/
def nan_row : Snapshot :=
  ⟨none, none, none, none, none, none, none, none, none, none,
   none, none, none, none, none, none, none, none, none⟩

/-- `a > b` on possibly-`NaN` values: `False` whenever either side is
`NaN`, like the IEEE comparison Python performs. -/
def opt_gt (a b : Option ℚ) : Bool :=
  match a, b with
  | some x, some y => decide (y < x)
  | _, _ => false

/-- `score_stock` lines 215-220: `trend_pts` (EMA20 > EMA50 gives 20,
MACD histogram > 0 gives 10; `latest.get('macd_hist', 0)` defaults a
missing histogram to 0, which also fails the `> 0` test). -/
def trend_pts (latest : Snapshot) : ℤ :=
  (if opt_gt latest.ema20 latest.ema50 then 20 else 0) +
  (if opt_gt latest.macd_hist (some 0) then 10 else 0)

/-- `score_stock` lines 224-239: `mom_pts`.  `float(rsi or 0)` maps an
RSI of exactly `0.0` to `0` and leaves `NaN` as `NaN` (`NaN` is truthy),
so an undefined RSI fails every band test; likewise for ROC.  For
StochRSI the code computes `float(stoch or np.nan)`, so a StochRSI of
exactly `0.0` becomes `NaN` and earns no points. -/
def mom_pts (latest : Snapshot) : ℤ :=
  (match latest.rsi with
   | some r =>
     if 30 ≤ r ∧ r ≤ 60 then 12
     else if r < 30 then 8
     else if 60 < r ∧ r < 75 then 6
     else 0
   | none => 0) +
  (match latest.roc with
   | some r => if 0 < r then 5 else 0
   | none => 0) +
  (match latest.stoch_rsi with
   | some v => if v ≠ 0 ∧ v < 1/2 then 3 else 0
   | none => 0)

/-- `score_stock` lines 243-249: `vol_pts` (volume above 1.5x / 1.1x its
20-period average). -/
def vol_pts (latest : Snapshot) : ℤ :=
  match latest.volume, latest.vol_avg_20 with
  | some v, some a => if 3/2 * a < v then 15 else if 11/10 * a < v then 8 else 0
  | _, _ => 0

/-- `score_stock` lines 253-257: close above VWAP. -/
def vwap_pts (latest : Snapshot) : ℤ :=
  match latest.close, latest.vwap with
  | some c, some w => if w < c then 10 else 0
  | _, _ => 0

/-- `score_stock` lines 259-265: ADX bands. -/
def adx_pts (latest : Snapshot) : ℤ :=
  match latest.adx with
  | some a => if 25 < a then 10 else if 18 < a then 5 else 0
  | none => 0

/-- `obv.rolling(20).mean().iloc[-1]`: the mean of the last 20 values of
the OBV column, `NaN` unless the window holds 20 defined values. -/
def rolling_mean_20 (l : List (Option ℚ)) : Option ℚ :=
  let w := l.drop (l.length - 20)
  if w.length = 20 ∧ w.all Option.isSome
  then some ((w.reduceOption).sum / 20)
  else none

/-- `score_stock` lines 267-273: the OBV block fires only when the frame
has at least 21 rows, and compares the last OBV value against its own
20-period rolling mean. -/
def obv_pts (df : List Snapshot) : ℤ :=
  if 21 ≤ df.length then
    match df.getLast? with
    | some latest =>
      match latest.obv, rolling_mean_20 (df.map Snapshot.obv) with
      | some o, some m => if m < o then 5 else 0
      | _, _ => 0
    | none => 0
  else 0

/-- `score_stock` lines 275-282: `atr_rel = atr / close` guarded by the
truthiness test `if latest['close'] and latest['atr']`; a zero close or
zero ATR short-circuits to `atr_rel = 0`, which then satisfies
`atr_rel < 0.01` and earns 5 points.  A `NaN` close or ATR is truthy in
Python, makes the ratio `NaN`, and fails both band tests (points 0),
which is also what `none` yields here. -/
def atr_pts (latest : Snapshot) : ℤ :=
  match latest.close, latest.atr with
  | some c, some a =>
    if c ≠ 0 ∧ a ≠ 0 then
      (if a / c < 1/100 then 5 else if a / c < 2/100 then 3 else 0)
    else 5
  | _, _ => 0

/-- `score_stock` (utils.py lines 207-285): 0 for frames shorter than 20
rows, otherwise the block sums over the latest row clamped to [0,100]
(`int(score)` truncates nothing: every addend is an integer). -/
def score_stock (df : List Snapshot) : ℤ :=
  if df.length < 20 then 0
  else
    match df.getLast? with
    | none => 0
    | some latest =>
      max 0 (min 100
        (trend_pts latest + mom_pts latest + vol_pts latest +
         vwap_pts latest + adx_pts latest + obv_pts df + atr_pts latest))

/-- First STRONG SELL override of `classify_signal`: `bb_low` is not
`NaN` and `close < bb_low` (a `NaN` close fails the comparison). -/
def bb_override (latest : Snapshot) : Bool :=
  match latest.bb_low, latest.close with
  | some bl, some c => decide (c < bl)
  | _, _ => false

/-- Second STRONG SELL override of `classify_signal`: `rsi` is not `NaN`
and `rsi > 85`. -/
def rsi_override (latest : Snapshot) : Bool :=
  match latest.rsi with
  | some r => decide (85 < r)
  | none => false

/-- `classify_signal` (utils.py lines 287-304).  `df.iloc[-1]` raises on
an empty frame (`none`); otherwise the two overrides are checked before
the score thresholds. -/
def classify_signal (score : ℤ) (df : List Snapshot) : Option String :=
  match df.getLast? with
  | none => none
  | some latest =>
    if bb_override latest then some "STRONG SELL"
    else if rsi_override latest then some "STRONG SELL"
    else if 70 ≤ score then some "STRONG BUY"
    else if 55 ≤ score then some "BUY"
    else if 40 ≤ score then some "HOLD"
    else some "SELL"

/-! ## The claim's additive point table (C1)

`spec_score_table` follows the wording of the spec's point table: one
independent additive row per condition, an undefined indicator
contributing 0 for its row, the sum clamped to [0,100].  It is the
comparison point for the refinement claim C1; `score_stock` above is the
source translation. -/

/-- Spec row: +20 if EMA20 > EMA50. -/
def row_ema (s : Snapshot) : ℤ := if opt_gt s.ema20 s.ema50 then 20 else 0

/-- Spec row: +10 if MACD histogram > 0. -/
def row_macd (s : Snapshot) : ℤ := if opt_gt s.macd_hist (some 0) then 10 else 0

/-- Spec row: +12 if 30 ≤ RSI ≤ 60. -/
def row_rsi_mid (s : Snapshot) : ℤ :=
  match s.rsi with
  | some r => if 30 ≤ r ∧ r ≤ 60 then 12 else 0
  | none => 0

/-- Spec row: +8 if RSI < 30. -/
def row_rsi_low (s : Snapshot) : ℤ :=
  match s.rsi with
  | some r => if r < 30 then 8 else 0
  | none => 0

/-- Spec row: +6 if 60 < RSI < 75. -/
def row_rsi_high (s : Snapshot) : ℤ :=
  match s.rsi with
  | some r => if 60 < r ∧ r < 75 then 6 else 0
  | none => 0

/-- Spec row: +5 if ROC > 0. -/
def row_roc (s : Snapshot) : ℤ :=
  match s.roc with
  | some r => if 0 < r then 5 else 0
  | none => 0

/-- Spec row: +15 if volume > 1.5x its 20-period average. -/
def row_vol_hi (s : Snapshot) : ℤ :=
  match s.volume, s.vol_avg_20 with
  | some v, some a => if 3/2 * a < v then 15 else 0
  | _, _ => 0

/-- Spec row: +8 if volume > 1.1x but ≤ 1.5x its 20-period average. -/
def row_vol_mid (s : Snapshot) : ℤ :=
  match s.volume, s.vol_avg_20 with
  | some v, some a => if 11/10 * a < v ∧ v ≤ 3/2 * a then 8 else 0
  | _, _ => 0

/-- Spec row: +10 if close > VWAP. -/
def row_vwap (s : Snapshot) : ℤ :=
  match s.close, s.vwap with
  | some c, some w => if w < c then 10 else 0
  | _, _ => 0

/-- Spec row: +10 if ADX > 25. -/
def row_adx_hi (s : Snapshot) : ℤ :=
  match s.adx with
  | some a => if 25 < a then 10 else 0
  | none => 0

/-- Spec row: +5 if 18 < ADX ≤ 25. -/
def row_adx_mid (s : Snapshot) : ℤ :=
  match s.adx with
  | some a => if 18 < a ∧ a ≤ 25 then 5 else 0
  | none => 0

/-- Spec row: +5 if OBV is above its own 20-period rolling mean
(undefined — fewer than 20 defined OBV values in the window — gives 0). -/
def row_obv (df : List Snapshot) : ℤ :=
  match df.getLast? with
  | some latest =>
    match latest.obv, rolling_mean_20 (df.map Snapshot.obv) with
    | some o, some m => if m < o then 5 else 0
    | _, _ => 0
  | none => 0

/-- Spec row: +5 if ATR / close < 1% (the ratio is undefined when close
is 0, contributing 0). -/
def row_atr_low (s : Snapshot) : ℤ :=
  match s.close, s.atr with
  | some c, some a => if c ≠ 0 ∧ a / c < 1/100 then 5 else 0
  | _, _ => 0

/-- Spec row: +3 if 1% ≤ ATR / close < 2%. -/
def row_atr_mid (s : Snapshot) : ℤ :=
  match s.close, s.atr with
  | some c, some a => if c ≠ 0 ∧ 1/100 ≤ a / c ∧ a / c < 2/100 then 3 else 0
  | _, _ => 0

/-- The additive point table exactly as claim C1 states it: the listed
rows only, summed over the latest snapshot, clamped to [0,100]. -/
def spec_score_table (df : List Snapshot) : ℤ :=
  match df.getLast? with
  | none => 0
  | some s =>
    max 0 (min 100
      (row_ema s + row_macd s +
       row_rsi_mid s + row_rsi_low s + row_rsi_high s +
       row_roc s +
       row_vol_hi s + row_vol_mid s +
       row_vwap s +
       row_adx_hi s + row_adx_mid s +
       row_obv df +
       row_atr_low s + row_atr_mid s))

/-- Amended row: +3 if StochRSI is defined, nonzero and < 0.5 (the code
turns an exact 0.0 into `NaN` via `stoch or np.nan`). -/
def row_stoch (s : Snapshot) : ℤ :=
  match s.stoch_rsi with
  | some v => if v ≠ 0 ∧ v < 1/2 then 3 else 0
  | none => 0

/-- Amended row: the OBV row additionally requires at least 21 bars. -/
def row_obv_21 (df : List Snapshot) : ℤ :=
  if 21 ≤ df.length then row_obv df else 0

/-- Amended row: +5 if ATR/close < 1%, where a zero ATR or zero close is
short-circuited to a ratio of 0 (hence +5) by the code's truthiness
guard. -/
def row_atr_low_guard (s : Snapshot) : ℤ :=
  match s.close, s.atr with
  | some c, some a =>
    if c ≠ 0 ∧ a ≠ 0 then (if a / c < 1/100 then 5 else 0) else 5
  | _, _ => 0

/-- Amended row: +3 if 1% ≤ ATR/close < 2% (only with nonzero ATR and
close). -/
def row_atr_mid_guard (s : Snapshot) : ℤ :=
  match s.close, s.atr with
  | some c, some a =>
    if c ≠ 0 ∧ a ≠ 0 ∧ 1/100 ≤ a / c ∧ a / c < 2/100 then 3 else 0
  | _, _ => 0

/-- The point table as amended by claim C1's correction: the spec's rows
plus the StochRSI row, the 21-bar requirement on the OBV row, and the
zero-guard on the ATR row. -/
def amended_score_table (df : List Snapshot) : ℤ :=
  match df.getLast? with
  | none => 0
  | some s =>
    max 0 (min 100
      (row_ema s + row_macd s +
       row_rsi_mid s + row_rsi_low s + row_rsi_high s +
       row_roc s + row_stoch s +
       row_vol_hi s + row_vol_mid s +
       row_vwap s +
       row_adx_hi s + row_adx_mid s +
       row_obv_21 df +
       row_atr_low_guard s + row_atr_mid_guard s))

/-! ## Block-by-block comparison of `score_stock` with the point table -/

theorem trend_pts_eq (s : Snapshot) : trend_pts s = row_ema s + row_macd s := rfl

theorem mom_pts_eq (s : Snapshot) :
    mom_pts s =
      row_rsi_mid s + row_rsi_low s + row_rsi_high s + row_roc s + row_stoch s := by
  unfold mom_pts row_rsi_mid row_rsi_low row_rsi_high row_roc row_stoch
  rcases s.rsi with _ | r <;> rcases s.roc with _ | c <;> rcases s.stoch_rsi with _ | v <;>
    simp only [] <;> (try split_ifs) <;>
    ((try casesm* _ ∧ _);
     first
       | rfl | linarith | (exfalso; tauto)
       | (exfalso
          apply ‹¬(30 ≤ r ∧ r ≤ 60)›
          exact ⟨by linarith, by linarith⟩)
       | (exfalso
          apply ‹¬(60 < r ∧ r < 75)›
          exact ⟨by linarith, by linarith⟩)
       | norm_num)

theorem vol_pts_eq (s : Snapshot) : vol_pts s = row_vol_hi s + row_vol_mid s := by
  unfold vol_pts row_vol_hi row_vol_mid
  rcases s.volume with _ | v <;> rcases s.vol_avg_20 with _ | a <;>
    simp only [] <;> (try split_ifs) <;>
    ((try casesm* _ ∧ _);
     first
       | rfl | linarith | (exfalso; tauto)
       | (exfalso
          apply ‹¬(11/10 * a < v ∧ v ≤ 3/2 * a)›
          exact ⟨by assumption, by linarith⟩)
       | norm_num)

theorem adx_pts_eq (s : Snapshot) : adx_pts s = row_adx_hi s + row_adx_mid s := by
  unfold adx_pts row_adx_hi row_adx_mid
  rcases s.adx with _ | a <;>
    simp only [] <;> (try split_ifs) <;>
    ((try casesm* _ ∧ _);
     first
       | rfl | linarith | (exfalso; tauto)
       | (exfalso
          apply ‹¬(18 < a ∧ a ≤ 25)›
          exact ⟨by assumption, by linarith⟩)
       | norm_num)

theorem atr_pts_eq (s : Snapshot) :
    atr_pts s = row_atr_low_guard s + row_atr_mid_guard s := by
  unfold atr_pts row_atr_low_guard row_atr_mid_guard
  rcases s.close with _ | c <;> rcases s.atr with _ | a <;>
    simp only [] <;> (try split_ifs) <;>
    ((try casesm* _ ∧ _);
     first
       | rfl | linarith | (exfalso; tauto)
       | (exfalso
          apply ‹¬(c ≠ 0 ∧ a ≠ 0 ∧ 1/100 ≤ a/c ∧ a/c < 2/100)›
          exact ⟨by assumption, by assumption, by linarith, by assumption⟩)
       | (exfalso
          apply ‹¬(c ≠ 0 ∧ a ≠ 0)›
          exact ⟨by assumption, by assumption⟩)
       | norm_num)

theorem obv_pts_eq (df : List Snapshot) : obv_pts df = row_obv_21 df := rfl

theorem vwap_pts_eq (s : Snapshot) : vwap_pts s = row_vwap s := rfl

/-- The concrete 20-row frame refuting claim C1: every indicator is
undefined except a StochRSI of 1/4 in the latest row. -/
def cex_frame : List Snapshot :=
  List.replicate 19 nan_row ++ [{ nan_row with stoch_rsi := some (1/4) }]

/-- C1 counterexample: on a 20-row frame whose only defined indicator is
a StochRSI of 1/4 in the latest row, `score_stock` returns 3 while the
claim's point table sums to 0 — the code awards +3 for a defined,
nonzero StochRSI below 0.5, a row absent from the claim's table. -/
theorem claim_C1_cex :
    cex_frame.length = 20 ∧ score_stock cex_frame = 3 ∧
      spec_score_table cex_frame = 0 := by
  refine ⟨rfl, ?_, ?_⟩ <;>
    norm_num [score_stock, spec_score_table, cex_frame, trend_pts, mom_pts,
      vol_pts, vwap_pts, adx_pts, obv_pts, atr_pts, nan_row, opt_gt,
      rolling_mean_20, row_ema, row_macd, row_rsi_mid, row_rsi_low,
      row_rsi_high, row_roc, row_vol_hi, row_vol_mid, row_vwap, row_adx_hi,
      row_adx_mid, row_obv, row_atr_low, row_atr_mid, List.getLast?_concat]

/-- C1 (amended): for every frame of length at least 20, `score_stock`
equals the claim's additive point table extended by the StochRSI row
(+3 if StochRSI is defined, nonzero and below 0.5), with the OBV row
additionally requiring at least 21 bars, and with the ATR row treating a
zero ATR or a zero close as ratio 0 (hence +5); the sum is clamped to
[0,100] and is an integer. -/
theorem claim_C1_amended (df : List Snapshot) (h : 20 ≤ df.length) :
    score_stock df = amended_score_table df := by
  unfold score_stock amended_score_table
  rw [if_neg (by omega)]
  cases hl : df.getLast? with
  | none => rfl
  | some s =>
    dsimp only
    rw [trend_pts_eq, mom_pts_eq, vol_pts_eq, vwap_pts_eq, adx_pts_eq,
        atr_pts_eq, obv_pts_eq]
    congr 1
    congr 1
    ring

/-- C1 witness: the amended table agrees with `score_stock` on the
concrete 20-row frame. -/
theorem claim_C1_witness :
    20 ≤ cex_frame.length ∧ score_stock cex_frame = amended_score_table cex_frame :=
  ⟨by decide, claim_C1_amended cex_frame (by decide)⟩

/-- C2: `classify_signal` checks the two STRONG SELL overrides (close
below the lower Bollinger band, or RSI above 85) before the score
thresholds, and otherwise maps the score through 70/55/40; in
particular a score of 80 with no override gives STRONG BUY. -/
theorem claim_C2 :
    (∀ (score : ℤ) (df : List Snapshot) (latest : Snapshot),
       df.getLast? = some latest →
       ((bb_override latest = true ∨ rsi_override latest = true →
           classify_signal score df = some "STRONG SELL") ∧
        (bb_override latest = false → rsi_override latest = false →
           classify_signal score df =
             some (if 70 ≤ score then "STRONG BUY"
                   else if 55 ≤ score then "BUY"
                   else if 40 ≤ score then "HOLD"
                   else "SELL")))) ∧
    (∀ (df : List Snapshot) (latest : Snapshot),
       df.getLast? = some latest →
       bb_override latest = false → rsi_override latest = false →
       classify_signal 80 df = some "STRONG BUY") := by
  constructor
  · intro score df latest h
    unfold classify_signal
    rw [h]
    constructor
    · rintro (hb | hr)
      · simp [hb]
      · simp [hr]
    · intro hb hr
      simp only [hb, hr, Bool.false_eq_true, if_false]
      split_ifs <;> rfl
  · intro df latest h hb hr
    unfold classify_signal
    rw [h]
    simp only [hb, hr, Bool.false_eq_true, if_false]
    norm_num

/-- A latest row whose close sits below a defined lower Bollinger band. -/
def bb_row : Snapshot := { nan_row with bb_low := some 10, close := some 5 }

/-- C2 witness: both branches of the classification exercised on
concrete rows — an override row yields STRONG SELL at any score, and a
no-override row with score 80 yields STRONG BUY. -/
theorem claim_C2_witness :
    classify_signal 0 [bb_row] = some "STRONG SELL" ∧
    classify_signal 80 [nan_row] = some "STRONG BUY" :=
  ⟨((claim_C2.1 0 [bb_row] bb_row (by decide)).1 (Or.inl (by decide))),
   claim_C2.2 [nan_row] nan_row (by decide) (by decide) (by decide)⟩

/-! ## The raw bar series and `calculate_indicators` (C3, C10) -/

/-- One raw OHLCV bar as delivered by the fetcher, after
`pd.to_numeric(..., errors='coerce')`: a non-numeric cell is `NaN`
(`none`).  The `open` column is called `openv`. -/
structure Bar where
  openv : Option ℚ
  high : Option ℚ
  low : Option ℚ
  close : Option ℚ
  volume : Option ℚ
deriving DecidableEq

/-- The snapshot `calculate_indicators` emits for one bar when the frame
is shorter than 20 rows: the OHLCV data with every indicator column set
to `NaN`. -/
def bar_row (b : Bar) : Snapshot :=
  { openv := b.openv, high := b.high, low := b.low, close := b.close,
    volume := b.volume,
    ema20 := none, ema50 := none, rsi := none, macd := none,
    macd_hist := none, bb_high := none, bb_low := none, atr := none,
    adx := none, obv := none, roc := none, stoch_rsi := none,
    vwap := none, vol_avg_20 := none }

/-- `calculate_indicators` (utils.py lines 157-204).  For fewer than 20
rows it returns the frame with all indicator columns `NaN` (lines
168-172, an early return).  The branch for 20 or more rows delegates to
the external `ta` indicator library (lines 174-203); that library is not
part of this repository, so the branch is a parameter `tb` and every
theorem below holds for all of its behaviours. -/
def calculate_indicators (tb : List Bar → List Snapshot) (df : List Bar) :
    List Snapshot :=
  if df.length < 20 then df.map bar_row else tb df

/-- All fourteen indicator columns of a snapshot are undefined. -/
def indicators_undefined (s : Snapshot) : Prop :=
  s.ema20 = none ∧ s.ema50 = none ∧ s.rsi = none ∧ s.macd = none ∧
  s.macd_hist = none ∧ s.bb_high = none ∧ s.bb_low = none ∧
  s.atr = none ∧ s.adx = none ∧ s.obv = none ∧ s.roc = none ∧
  s.stoch_rsi = none ∧ s.vwap = none ∧ s.vol_avg_20 = none

/-- C3: for every bar series shorter than 20 rows — whatever the
indicator library would do — `calculate_indicators` emits only snapshots
with every indicator column undefined, and `score_stock` on the result
is exactly 0. -/
theorem claim_C3 :
    ∀ (tb : List Bar → List Snapshot) (df : List Bar), df.length < 20 →
      (∀ s ∈ calculate_indicators tb df, indicators_undefined s) ∧
      score_stock (calculate_indicators tb df) = 0 := by
  intro tb df h
  unfold calculate_indicators
  rw [if_pos h]
  constructor
  · intro s hs
    rcases List.mem_map.mp hs with ⟨b, _, rfl⟩
    exact ⟨rfl, rfl, rfl, rfl, rfl, rfl, rfl, rfl, rfl, rfl, rfl, rfl, rfl, rfl⟩
  · unfold score_stock
    rw [if_pos (by simpa using h)]

/-- A concrete one-row bar series. -/
def bar0 : Bar := ⟨some 1, some 2, some 1, some 2, some 100⟩

/-- C3 witness: the insufficient-history behaviour on a concrete
one-bar series (with an arbitrary behaviour for the indicator-library
branch, which is not reached). -/
theorem claim_C3_witness :
    ([bar0].length < 20) ∧
    indicators_undefined (bar_row bar0) ∧
    score_stock (calculate_indicators (fun _ => []) [bar0]) = 0 :=
  ⟨by decide,
   (claim_C3 (fun _ => []) [bar0] (by decide)).1 (bar_row bar0) (by decide),
   (claim_C3 (fun _ => []) [bar0] (by decide)).2⟩

/-- C4: `score_stock` is a total function of the frame — every
fallible access in the source sits inside a `try/except` and the
ATR/close division is truthiness-guarded, which this model reflects —
and its value is always an integer in [0,100], for every frame
(all-zero volume, constant close and undefined columns included). -/
theorem claim_C4 :
    ∀ df : List Snapshot, 0 ≤ score_stock df ∧ score_stock df ≤ 100 := by
  intro df
  unfold score_stock
  by_cases h : df.length < 20
  · rw [if_pos h]
    exact ⟨le_refl 0, by norm_num⟩
  · rw [if_neg h]
    cases df.getLast? with
    | none => exact ⟨le_refl 0, by norm_num⟩
    | some s =>
      exact ⟨le_max_left 0 _, max_le (by norm_num) (min_le_left 100 _)⟩

/-- `getLast?` commutes with `map`. -/
theorem getLast?_map_eq {α β : Type} (f : α → β) :
    ∀ l : List α, (l.map f).getLast? = (l.getLast?).map f
  | [] => rfl
  | [_] => rfl
  | a :: b :: t => by
    rw [List.map_cons, List.map_cons, List.getLast?_cons_cons,
        List.getLast?_cons_cons, ← List.map_cons]
    exact getLast?_map_eq f (b :: t)

/-- C10 counterexample: on the empty bar series the claim fails —
`classify_signal` reads `df.iloc[-1]` before any guard, so it raises
(`none`) instead of returning SELL. -/
theorem claim_C10_cex :
    (([] : List Bar).length < 20) ∧
    classify_signal (score_stock (calculate_indicators (fun _ => []) []))
        (calculate_indicators (fun _ => []) []) = none := by
  exact ⟨by norm_num, rfl⟩

/-- C10 (amended): for every NONEMPTY bar series shorter than 20 rows,
whatever the indicator-library branch would do, the pipeline score is 0
(below every threshold), both STRONG SELL overrides are skipped because
the latest row's `bb_low` and `rsi` are `NaN`, and `classify_signal`
returns SELL. -/
theorem claim_C10_amended :
    ∀ (tb : List Bar → List Snapshot) (df : List Bar),
      df ≠ [] → df.length < 20 →
      classify_signal (score_stock (calculate_indicators tb df))
          (calculate_indicators tb df) = some "SELL" := by
  intro tb df hne h
  have hcalc : calculate_indicators tb df = df.map bar_row := if_pos h
  rw [hcalc]
  have hscore : score_stock (df.map bar_row) = 0 := by
    unfold score_stock
    rw [if_pos (by simpa using h)]
  rw [hscore]
  obtain ⟨b, hb⟩ := Option.isSome_iff_exists.mp (List.getLast?_isSome.mpr hne)
  unfold classify_signal
  rw [getLast?_map_eq bar_row df, hb]
  norm_num [bb_override, rsi_override, bar_row]

/-- C10 witness: the amended behaviour on a concrete one-bar series. -/
theorem claim_C10_witness :
    ([bar0] ≠ ([] : List Bar)) ∧ [bar0].length < 20 ∧
    classify_signal (score_stock (calculate_indicators (fun _ => []) [bar0]))
        (calculate_indicators (fun _ => []) [bar0]) = some "SELL" :=
  ⟨by simp, by norm_num,
   claim_C10_amended (fun _ => []) [bar0] (by simp) (by norm_num)⟩

/-! ## The percent-change metric of `fetch_and_analyze` (C5) -/

/-- The only percent-change metric in the source (utils.py lines
349-353): when the series has more than `trend_minutes` bars,
`past_price = df['close'].iloc[-trend_minutes]` (the close
`trend_minutes` bars before the end; Python's `-0` is `0`, the first
bar) and the metric is `(last - past) / past * 100` unless `past` is
falsy (0), in which case — and when the series is short — it is 0.
The close column contains no `NaN` (the fetcher drops such rows), so
plain rationals model it. -/
def future_potential_metric (closes : List ℚ) (trend_minutes : ℕ) : ℚ :=
  if trend_minutes < closes.length then
    if closes.getD (if trend_minutes = 0 then 0 else closes.length - trend_minutes) 0 ≠ 0 then
      (closes.getD (closes.length - 1) 0 -
        closes.getD (if trend_minutes = 0 then 0 else closes.length - trend_minutes) 0) /
        closes.getD (if trend_minutes = 0 then 0 else closes.length - trend_minutes) 0 * 100
    else 0
  else 0

/-- The metric exactly as claim C5 words it: latest close against the
FIRST close of the series, 0 on a single-bar series or when the first
close is 0. -/
def percent_change_spec (closes : List ℚ) : ℚ :=
  if closes.length ≤ 1 then 0
  else if closes.getD 0 0 = 0 then 0
  else (closes.getD (closes.length - 1) 0 - closes.getD 0 0) /
    closes.getD 0 0 * 100

/-- C5 counterexample: on the two-bar series [100, 110] the claim's
formula gives exactly 10, but the code's metric (called with
`trend_minutes = 30`) gives 0 because the series is not longer than 30
bars; and on a 31-bar series with first close 100, last close 110 and
close 50 thirty bars before the end, the code measures from 50, giving
120, not 10. -/
theorem claim_C5_cex :
    percent_change_spec [100, 110] = 10 ∧
    future_potential_metric [100, 110] 30 = 0 ∧
    future_potential_metric (100 :: (List.replicate 29 50 ++ [110])) 30 = 120 := by
  refine ⟨?_, ?_, ?_⟩ <;>
    norm_num [percent_change_spec, future_potential_metric,
      List.getD_cons_zero, List.getD_cons_succ, List.replicate_succ]

/-- C5 (amended): the metric equals `(last − past) / past × 100` where
`past` is the close `trend_minutes` bars before the end, whenever the
series has more than `trend_minutes` bars and that reference close is
nonzero; otherwise (short series, or a zero reference close) it is 0.
In the application `trend_minutes = 30`. -/
theorem claim_C5_amended :
    ∀ (closes : List ℚ) (t : ℕ),
      (closes.length ≤ t → future_potential_metric closes t = 0) ∧
      (t < closes.length → 1 ≤ t →
        (closes.getD (closes.length - t) 0 = 0 →
            future_potential_metric closes t = 0) ∧
        (closes.getD (closes.length - t) 0 ≠ 0 →
            future_potential_metric closes t =
              (closes.getD (closes.length - 1) 0 -
                closes.getD (closes.length - t) 0) /
                closes.getD (closes.length - t) 0 * 100)) := by
  intro closes t
  refine ⟨fun h => ?_, fun h ht => ?_⟩
  · unfold future_potential_metric
    rw [if_neg (by omega)]
  · have hz : (if t = 0 then 0 else closes.length - t) = closes.length - t :=
      if_neg (by omega)
    constructor
    · intro h0
      unfold future_potential_metric
      rw [hz, if_pos h, if_neg (by simpa using h0)]
    · intro h0
      unfold future_potential_metric
      rw [hz, if_pos h, if_pos h0]

/-- C5 witness: both amended branches at concrete inputs — the 2-bar
series is too short for the 30-bar lookback, and a 31-bar series
measures from the close 30 bars before the end. -/
theorem claim_C5_witness :
    (([100, 110] : List ℚ).length ≤ 30 ∧
      future_potential_metric [100, 110] 30 = 0) ∧
    (30 < (100 :: (List.replicate 29 50 ++ [110]) : List ℚ).length ∧
      future_potential_metric (100 :: (List.replicate 29 50 ++ [110])) 30 =
        ((100 :: (List.replicate 29 50 ++ [110]) : List ℚ).getD
            ((100 :: (List.replicate 29 50 ++ [110]) : List ℚ).length - 1) 0 -
          (100 :: (List.replicate 29 50 ++ [110]) : List ℚ).getD
            ((100 :: (List.replicate 29 50 ++ [110]) : List ℚ).length - 30) 0) /
          (100 :: (List.replicate 29 50 ++ [110]) : List ℚ).getD
            ((100 :: (List.replicate 29 50 ++ [110]) : List ℚ).length - 30) 0 * 100) :=
  ⟨⟨by norm_num, (claim_C5_amended [100, 110] 30).1 (by norm_num)⟩,
   ⟨by norm_num,
    ((claim_C5_amended (100 :: (List.replicate 29 50 ++ [110])) 30).2
        (by norm_num) (by norm_num)).2
      (by norm_num [List.getD_cons_zero, List.getD_cons_succ, List.replicate_succ])⟩⟩

/-! ## `compute_future_potential` (C6) -/

/-- `df['close'].pct_change().dropna()`: the consecutive fractional
changes `(cur - prev) / prev` (the leading `NaN` of `pct_change` is what
`dropna` removes).  Rationals cannot model the IEEE infinity pandas
produces when a previous close is 0, so every theorem below assumes the
closes that serve as denominators are nonzero. -/
def pct_changes (closes : List ℚ) : List ℚ :=
  List.zipWith (fun prev cur => (cur - prev) / prev) closes closes.tail

/-- The accumulation loop of `compute_future_potential`: `cum += avg;
future[i+1] = cum * 100` for `days` iterations. -/
def cfp_loop (avg : ℚ) : ℚ → ℕ → List ℚ
  | _, 0 => []
  | cum, n + 1 => (cum + avg) * 100 :: cfp_loop avg (cum + avg) n

/-- `compute_future_potential` (utils.py lines 307-319).  The dead read
`latest_price = df['close'].iloc[-1]` raises on an empty frame BEFORE
the length guard (`none`); one bar gives all-zero projections; otherwise
the mean fractional change is accumulated linearly and scaled by 100. -/
def compute_future_potential (closes : List ℚ) (days : ℕ) : Option (List ℚ) :=
  match closes with
  | [] => none
  | _ :: _ =>
    if closes.length < 2 then some (List.replicate days 0)
    else
      let changes := pct_changes closes
      let avg := if changes.isEmpty then 0 else changes.sum / (changes.length : ℚ)
      some (cfp_loop avg 0 days)

theorem cfp_loop_getD (avg : ℚ) :
    ∀ (days : ℕ) (cum : ℚ) (d : ℕ), d < days →
      (cfp_loop avg cum days).getD d 0 = (cum + (d + 1) * avg) * 100 := by
  intro days
  induction days with
  | zero => intro cum d hd; omega
  | succ n ih =>
    intro cum d hd
    cases d with
    | zero =>
      show ((cum + avg) * 100 :: cfp_loop avg (cum + avg) n).getD 0 0 = _
      rw [List.getD_cons_zero]
      push_cast
      ring
    | succ d' =>
      show ((cum + avg) * 100 :: cfp_loop avg (cum + avg) n).getD (d' + 1) 0 = _
      rw [List.getD_cons_succ, ih (cum + avg) d' (by omega)]
      push_cast
      ring

/-- C6 counterexample: the claim promises all-zero projections for
every series with fewer than 2 bars, but on the empty series the code
reads the last close before the length guard and raises. -/
theorem claim_C6_cex :
    (([] : List ℚ).length < 2) ∧
    compute_future_potential [] 10 = none := ⟨by norm_num, rfl⟩

/-- C6 (amended): for a one-bar series every projected value is 0; for
a series with at least 2 bars (whose closes other than the last are
nonzero, so that no percent change degenerates), the projection for day
`d` in `1..days` is exactly `m × d`, where `m` is 100 times the mean
fractional bar-to-bar change — linear extrapolation, no compounding. -/
theorem claim_C6_amended :
    ∀ (closes : List ℚ) (days : ℕ),
      (closes.length = 1 →
        compute_future_potential closes days = some (List.replicate days 0)) ∧
      (2 ≤ closes.length → (∀ x ∈ closes.dropLast, x ≠ 0) →
        (compute_future_potential closes days).isSome ∧
        ∀ d : ℕ, 1 ≤ d → d ≤ days →
          ((compute_future_potential closes days).getD []).getD (d - 1) 0 =
            100 * ((pct_changes closes).sum / ((pct_changes closes).length : ℚ)) * d) := by
  intro closes days
  constructor
  · intro h1
    obtain ⟨c, rfl⟩ := List.length_eq_one.mp h1
    rfl
  · intro h2 _hnz
    obtain ⟨a, t1, rfl⟩ : ∃ a t1, closes = a :: t1 := by
      cases closes with
      | nil => norm_num at h2
      | cons a t1 => exact ⟨a, t1, rfl⟩
    obtain ⟨b, t, rfl⟩ : ∃ b t, t1 = b :: t := by
      cases t1 with
      | nil => norm_num at h2
      | cons b t => exact ⟨b, t, rfl⟩
    have hne : (pct_changes (a :: b :: t)).isEmpty = false := rfl
    have hres : compute_future_potential (a :: b :: t) days =
        some (cfp_loop ((pct_changes (a :: b :: t)).sum /
          ((pct_changes (a :: b :: t)).length : ℚ)) 0 days) := by
      simp only [compute_future_potential]
      rw [if_neg (by simp only [List.length_cons]; omega)]
      simp only [hne, Bool.false_eq_true, if_false]
    refine ⟨by rw [hres]; rfl, ?_⟩
    intro d hd1 hd2
    rw [hres]
    simp only [Option.getD_some]
    rw [cfp_loop_getD _ days 0 (d - 1) (by omega)]
    rw [Nat.cast_sub hd1]
    push_cast
    ring

/-- C6 witness: both amended branches at concrete inputs — a one-bar
series projects all zeros, and for the two-bar series [100, 110] the
day-3 projection is the mean percent change times 3. -/
theorem claim_C6_witness :
    (([5] : List ℚ).length = 1 ∧
      compute_future_potential [5] 10 = some (List.replicate 10 0)) ∧
    (2 ≤ ([100, 110] : List ℚ).length ∧
      ((compute_future_potential [100, 110] 10).getD []).getD 2 0 =
        100 * ((pct_changes [100, 110]).sum /
          ((pct_changes [100, 110]).length : ℚ)) * ((3 : ℕ) : ℚ)) :=
  ⟨⟨rfl, (claim_C6_amended [5] 10).1 rfl⟩,
   ⟨by norm_num,
    ((claim_C6_amended [100, 110] 10).2 (by norm_num)
        (by norm_num)).2 3 (by norm_num) (by norm_num)⟩⟩

/-! ## String-keyed dictionaries (CPython `dict` semantics: update in
place, append new keys in insertion order) -/

def dict_insert {α : Type} (k : String) (v : α) :
    List (String × α) → List (String × α)
  | [] => [(k, v)]
  | (k', v') :: rest =>
    if k' = k then (k, v) :: rest else (k', v') :: dict_insert k v rest

def dict_lookup {α : Type} (k : String) : List (String × α) → Option α
  | [] => none
  | (k', v) :: rest => if k' = k then some v else dict_lookup k rest

def dict_keys {α : Type} (m : List (String × α)) : List String :=
  m.map Prod.fst

theorem dict_lookup_insert {α : Type} (k : String) (v : α) :
    ∀ m : List (String × α), dict_lookup k (dict_insert k v m) = some v
  | [] => by simp [dict_insert, dict_lookup]
  | (k', v') :: rest => by
    by_cases h : k' = k
    · simp [dict_insert, dict_lookup, h]
    · simp only [dict_insert, dict_lookup, if_neg h]
      exact dict_lookup_insert k v rest

theorem dict_lookup_insert_ne {α : Type} (k c : String) (v : α) (hne : c ≠ k) :
    ∀ m : List (String × α),
      dict_lookup c (dict_insert k v m) = dict_lookup c m
  | [] => by simp [dict_insert, dict_lookup, Ne.symm hne]
  | (k', v') :: rest => by
    by_cases h : k' = k
    · subst h
      simp [dict_insert, dict_lookup, Ne.symm hne]
    · simp only [dict_insert, if_neg h, dict_lookup]
      by_cases h2 : k' = c
      · simp [h2]
      · simp only [if_neg h2]
        exact dict_lookup_insert_ne k c v hne rest

theorem mem_dict_keys_insert {α : Type} (k c : String) (v : α) :
    ∀ m : List (String × α),
      (c ∈ dict_keys (dict_insert k v m) ↔ c ∈ dict_keys m ∨ c = k)
  | [] => by simp [dict_insert, dict_keys]
  | (k', v') :: rest => by
    have ih := mem_dict_keys_insert k c v rest
    by_cases h : k' = k
    · subst h
      simp [dict_insert, dict_keys]
      tauto
    · simp only [dict_keys] at ih ⊢
      simp only [dict_insert, if_neg h, List.map_cons, List.mem_cons, ih]
      tauto

theorem dict_keys_insert_nodup {α : Type} (k : String) (v : α) :
    ∀ m : List (String × α), (dict_keys m).Nodup →
      (dict_keys (dict_insert k v m)).Nodup
  | [], _ => by simp [dict_insert, dict_keys]
  | (k', v') :: rest, hnd => by
    have hk' : k' ∉ dict_keys rest := by
      have := hnd
      simp only [dict_keys, List.map_cons, List.nodup_cons] at this
      exact this.1
    have hrest : (dict_keys rest).Nodup := by
      have := hnd
      simp only [dict_keys, List.map_cons, List.nodup_cons] at this
      exact this.2
    by_cases h : k' = k
    · subst h
      simp only [dict_insert, eq_self_iff_true, if_true, dict_keys,
        List.map_cons, List.nodup_cons]
      exact ⟨hk', hrest⟩
    · simp only [dict_insert, if_neg h, dict_keys, List.map_cons,
        List.nodup_cons]
      refine ⟨?_, dict_keys_insert_nodup k v rest hrest⟩
      intro hmem
      rcases (mem_dict_keys_insert k k' v rest).mp hmem with hin | heq
      · exact hk' hin
      · exact h heq

theorem mem_dict_insert {α : Type} (k : String) (v : α) :
    ∀ m : List (String × α), ∀ kv ∈ dict_insert k v m,
      kv = (k, v) ∨ kv ∈ m
  | [] => by simp [dict_insert]
  | (k', v') :: rest => by
    by_cases h : k' = k
    · subst h
      simp only [dict_insert, eq_self_iff_true, if_true, List.mem_cons]
      tauto
    · simp only [dict_insert, if_neg h, List.mem_cons]
      intro kv hkv
      rcases hkv with hkv | hkv
      · tauto
      · rcases mem_dict_insert k v rest kv hkv with h1 | h1 <;> tauto

/-! ## `send_telegram_message` (C8) -/

/-- The outcome of one `requests.post` call: either the call raised, or
it returned a response with a status code and — when `resp.json()`
succeeded and produced a dict with an "ok" field — that boolean (`none`
models a body whose parse failed, which the code treats as not ok). -/
inductive PostOutcome where
  | exc (e : String)
  | resp (status : ℤ) (body_ok : Option Bool)
deriving DecidableEq

/-- How `send_telegram_message` records one destination's outcome. -/
inductive SendResult where
  | delivered
  | failed (status : ℤ)
  | failed_exc (e : String)
deriving DecidableEq

/-- Lines 80-93: an exception is recorded verbatim; a response is ok
only when the status is 200 and the parsed body says ok. -/
def handle_outcome (o : PostOutcome) : SendResult :=
  match o with
  | .exc e => .failed_exc e
  | .resp status body =>
    if status ≠ 200 ∨ (match body with | some b => b | none => false) = false
    then .failed status
    else .delivered

/-- `send_telegram_message` (utils.py lines 64-94): empty token or empty
destination list short-circuits to an empty result map; otherwise one
post per destination, each outcome recorded in the `results` dict under
that chat id, later duplicates overwriting earlier entries.  The network
is the parameter `post`. -/
def send_telegram_message (bot_token message : String)
    (chat_ids : List String) (post : String → PostOutcome) :
    List (String × SendResult) :=
  if bot_token = "" ∨ chat_ids = [] then []
  else chat_ids.foldl
    (fun acc c => dict_insert c (handle_outcome (post c)) acc) []

theorem send_loop_spec {α : Type} (f : String → α) :
    ∀ (ids : List String) (acc : List (String × α)),
      (dict_keys acc).Nodup →
      (dict_keys (ids.foldl (fun m c => dict_insert c (f c) m) acc)).Nodup ∧
      (∀ c, c ∈ dict_keys (ids.foldl (fun m c => dict_insert c (f c) m) acc) ↔
        c ∈ dict_keys acc ∨ c ∈ ids) ∧
      (∀ c ∈ ids,
        dict_lookup c (ids.foldl (fun m c => dict_insert c (f c) m) acc) =
          some (f c)) ∧
      (∀ c, c ∉ ids →
        dict_lookup c (ids.foldl (fun m c => dict_insert c (f c) m) acc) =
          dict_lookup c acc)
  | [], acc => by
    intro hnd
    refine ⟨hnd, by simp, by simp, by simp⟩
  | c0 :: rest, acc => by
    intro hnd
    have hnd' := dict_keys_insert_nodup c0 (f c0) acc hnd
    obtain ⟨ih1, ih2, ih3, ih4⟩ :=
      send_loop_spec f rest (dict_insert c0 (f c0) acc) hnd'
    refine ⟨ih1, ?_, ?_, ?_⟩
    · intro c
      rw [List.foldl_cons, ih2 c, mem_dict_keys_insert c0 c (f c0) acc,
        List.mem_cons]
      tauto
    · intro c hc
      rw [List.foldl_cons]
      by_cases hr : c ∈ rest
      · exact ih3 c hr
      · have hc0 : c = c0 := by
          rcases List.mem_cons.mp hc with h | h
          · exact h
          · exact absurd h hr
        subst hc0
        rw [ih4 c hr, dict_lookup_insert]
    · intro c hc
      rw [List.foldl_cons,
        ih4 c (fun h => hc (List.mem_cons_of_mem c0 h)),
        dict_lookup_insert_ne c0 c (f c0)
          (fun h => hc (h ▸ List.mem_cons_self c0 rest)) acc]

/-- C8: with a configured token and a nonempty destination list, the
result map has exactly one entry per distinct destination (its keys are
free of duplicates and are exactly the destinations), and each
destination's entry is determined solely by its own post outcome —
delivered for a 200/ok response, failed with the status otherwise, and
an exception recorded verbatim without preventing any other entry. -/
theorem claim_C8 :
    ∀ (bot_token message : String) (chat_ids : List String)
      (post : String → PostOutcome),
      bot_token ≠ "" → chat_ids ≠ [] →
      (dict_keys (send_telegram_message bot_token message chat_ids post)).Nodup ∧
      (∀ c, c ∈ dict_keys (send_telegram_message bot_token message chat_ids post) ↔
        c ∈ chat_ids) ∧
      (∀ c ∈ chat_ids,
        dict_lookup c (send_telegram_message bot_token message chat_ids post) =
          some (handle_outcome (post c))) := by
  intro bot_token message chat_ids post ht hc
  have hguard : ¬ (bot_token = "" ∨ chat_ids = []) := by tauto
  unfold send_telegram_message
  rw [if_neg hguard]
  obtain ⟨h1, h2, h3, _⟩ :=
    send_loop_spec (fun c => handle_outcome (post c)) chat_ids [] (by simp [dict_keys])
  refine ⟨h1, ?_, h3⟩
  intro c
  rw [h2 c]
  simp [dict_keys]

/-- Three destinations, the middle one's HTTP call raising. -/
def post3 : String → PostOutcome := fun c =>
  if c = "b" then .exc "timeout" else .resp 200 (some true)

/-- C8 witness: for destinations a, b, c where the call for b throws,
the result map holds exactly three entries — a and c delivered, b failed
with the exception detail. -/
theorem claim_C8_witness :
    dict_lookup "a" (send_telegram_message "tok" "msg" ["a", "b", "c"] post3) =
      some SendResult.delivered ∧
    dict_lookup "b" (send_telegram_message "tok" "msg" ["a", "b", "c"] post3) =
      some (SendResult.failed_exc "timeout") ∧
    dict_lookup "c" (send_telegram_message "tok" "msg" ["a", "b", "c"] post3) =
      some SendResult.delivered ∧
    (dict_keys (send_telegram_message "tok" "msg" ["a", "b", "c"] post3)).Nodup := by
  have h := claim_C8 "tok" "msg" ["a", "b", "c"] post3 (by decide) (by decide)
  refine ⟨?_, ?_, ?_, h.1⟩
  · rw [h.2.2 "a" (by decide)]; decide
  · rw [h.2.2 "b" (by decide)]; decide
  · rw [h.2.2 "c" (by decide)]; decide

/-! ## The portfolio and its buy/sell handlers (C9) -/

/-- One portfolio entry (main.py lines 71-75): entry price and integer
quantity (the stored timestamp plays no role in any claim). -/
structure Entry where
  entry_price : ℚ
  quantity : ℤ
deriving DecidableEq

/-- config.py: `TOTAL_CAPITAL = 1000000`. -/
def TOTAL_CAPITAL : ℚ := 1000000

/-- The `1e-6` slack in the buy handler's capital check (main.py line
66: `if invest > left_now + 1e-6`). -/
def BUY_EPS : ℚ := 1 / 1000000

/-- `entry_price * quantity` for one holding. -/
def entry_cost (e : Entry) : ℚ := e.entry_price * (e.quantity : ℚ)

/-- `calculate_used_and_left` (main.py lines 43-48): the capital tied up
in the portfolio. -/
def used_capital (p : List (String × Entry)) : ℚ :=
  (p.map (fun kv => entry_cost kv.2)).sum

/-- The cost of the holding stored under `k`, 0 when there is none. -/
def lookup_cost (k : String) (m : List (String × Entry)) : ℚ :=
  match dict_lookup k m with
  | some e => entry_cost e
  | none => 0

/-- `del portfolio[sym]` (main.py line 94). -/
def dict_erase {α : Type} (k : String) (m : List (String × α)) :
    List (String × α) :=
  m.filter (fun kv => kv.1 != k)

/-- The Enter Buy handler (main.py lines 62-77): reject when the cost
exceeds the remaining capital by more than `1e-6`, reject a non-positive
quantity, otherwise store (overwrite) the entry under the ticker. -/
def enter_buy (p : List (String × Entry)) (ticker : String)
    (price : ℚ) (qty : ℤ) : List (String × Entry) :=
  if price * (qty : ℚ) > TOTAL_CAPITAL - used_capital p + BUY_EPS then p
  else if qty ≤ 0 then p
  else dict_insert ticker ⟨price, qty⟩ p

/-- The Enter Sell handler (main.py lines 84-96): reject an empty
symbol, a symbol not in the portfolio, a non-positive quantity or one
exceeding the holding; otherwise decrement, deleting the entry when the
quantity reaches exactly 0. -/
def enter_sell (p : List (String × Entry)) (sym : String) (qty : ℤ) :
    List (String × Entry) :=
  if sym = "" then p
  else
    match dict_lookup sym p with
    | none => p
    | some e =>
      if qty ≤ 0 ∨ e.quantity < qty then p
      else if e.quantity - qty = 0 then dict_erase sym p
      else dict_insert sym ⟨e.entry_price, e.quantity - qty⟩ p

/-- One UI action: a buy with the widget constraints (price ≥ 0 from
`min_value=0.0`, quantity ≥ 0 from `min_value=0`) or a sell (the sell
price field does not affect the portfolio). -/
inductive UIStep : List (String × Entry) → List (String × Entry) → Prop
  | buy (p : List (String × Entry)) (ticker : String) (price : ℚ)
      (qty : ℤ) (hp : 0 ≤ price) (hq : 0 ≤ qty) :
      UIStep p (enter_buy p ticker price qty)
  | sell (p : List (String × Entry)) (sym : String) (qty : ℤ)
      (hq : 0 ≤ qty) : UIStep p (enter_sell p sym qty)

/-- Portfolio states reachable from the empty portfolio through the UI
handlers. -/
def Reachable (p : List (String × Entry)) : Prop :=
  Relation.ReflTransGen UIStep [] p

/-- The inductive invariant: distinct keys, every holding with quantity
at least 1 and nonnegative price, and used capital at most
`TOTAL_CAPITAL + 1e-6`. -/
def portfolio_ok (p : List (String × Entry)) : Prop :=
  (dict_keys p).Nodup ∧
  (∀ kv ∈ p, 1 ≤ kv.2.quantity ∧ 0 ≤ kv.2.entry_price) ∧
  used_capital p ≤ TOTAL_CAPITAL + BUY_EPS

theorem used_capital_insert (k : String) (v : Entry) :
    ∀ m : List (String × Entry),
      used_capital (dict_insert k v m) =
        used_capital m + entry_cost v - lookup_cost k m
  | [] => by simp [dict_insert, used_capital, lookup_cost, dict_lookup]
  | (k', v') :: rest => by
    by_cases h : k' = k
    · subst h
      simp only [dict_insert, eq_self_iff_true, if_true, used_capital,
        List.map_cons, List.sum_cons, lookup_cost, dict_lookup]
      ring
    · simp only [dict_insert, if_neg h, used_capital, List.map_cons,
        List.sum_cons, lookup_cost, dict_lookup]
      have ih := used_capital_insert k v rest
      simp only [used_capital, lookup_cost] at ih
      rw [ih]
      ring

theorem dict_lookup_mem {α : Type} (k : String) (e : α) :
    ∀ m : List (String × α), dict_lookup k m = some e → (k, e) ∈ m
  | [] => by simp [dict_lookup]
  | (k', v') :: rest => by
    by_cases h : k' = k
    · subst h
      simp only [dict_lookup, eq_self_iff_true, if_true, Option.some_inj,
        List.mem_cons]
      rintro rfl
      exact Or.inl rfl
    · simp only [dict_lookup, if_neg h, List.mem_cons]
      intro hl
      exact Or.inr (dict_lookup_mem k e rest hl)

theorem dict_keys_erase_nodup {α : Type} (k : String)
    (m : List (String × α)) (h : (dict_keys m).Nodup) :
    (dict_keys (dict_erase k m)).Nodup :=
  h.sublist ((List.filter_sublist m).map Prod.fst)

theorem dict_lookup_erase {α : Type} (k : String) :
    ∀ m : List (String × α), dict_lookup k (dict_erase k m) = none
  | [] => rfl
  | (k', v') :: rest => by
    by_cases h : k' = k
    · subst h
      simp only [dict_erase, List.filter_cons, bne_self_eq_false,
        Bool.false_eq_true, if_false]
      exact dict_lookup_erase k' rest
    · have hb : (k' != k) = true := by simpa using h
      show dict_lookup k (((k', v') :: rest).filter (fun kv => kv.1 != k)) = none
      rw [List.filter_cons, if_pos hb]
      show dict_lookup k ((k', v') :: rest.filter (fun kv => kv.1 != k)) = none
      simp only [dict_lookup, if_neg h]
      exact dict_lookup_erase k rest

theorem used_capital_erase_le (k : String) :
    ∀ m : List (String × Entry), (∀ kv ∈ m, 0 ≤ entry_cost kv.2) →
      used_capital (dict_erase k m) ≤ used_capital m
  | [] => by simp [dict_erase, used_capital]
  | (k', v') :: rest => by
    intro hpos
    have hrest := used_capital_erase_le k rest
      (fun kv hkv => hpos kv (List.mem_cons_of_mem _ hkv))
    by_cases h : k' = k
    · subst h
      simp only [dict_erase, List.filter_cons, bne_self_eq_false,
        Bool.false_eq_true, if_false, used_capital, List.map_cons,
        List.sum_cons]
      have hv' := hpos (k', v') (List.mem_cons_self _ _)
      calc used_capital (dict_erase k' rest) ≤ used_capital rest := hrest
        _ ≤ entry_cost v' + used_capital rest := by linarith
    · have hb : (k' != k) = true := by simpa using h
      show used_capital (((k', v') :: rest).filter (fun kv => kv.1 != k)) ≤ _
      rw [List.filter_cons, if_pos hb]
      show used_capital ((k', v') :: rest.filter (fun kv => kv.1 != k)) ≤ _
      simp only [used_capital, List.map_cons, List.sum_cons]
      simp only [dict_erase, used_capital] at hrest
      linarith

theorem lookup_cost_nonneg (k : String) (p : List (String × Entry))
    (hent : ∀ kv ∈ p, 1 ≤ kv.2.quantity ∧ 0 ≤ kv.2.entry_price) :
    0 ≤ lookup_cost k p := by
  unfold lookup_cost
  cases hl : dict_lookup k p with
  | none => exact le_refl 0
  | some e =>
    have hm := dict_lookup_mem k e p hl
    have he := hent _ hm
    exact mul_nonneg he.2 (by exact_mod_cast le_trans zero_le_one he.1)

theorem step_preserves_ok (p q : List (String × Entry))
    (hok : portfolio_ok p) (hstep : UIStep p q) : portfolio_ok q := by
  obtain ⟨hnd, hent, hused⟩ := hok
  cases hstep with
  | buy t price qty hp hq =>
    unfold enter_buy
    by_cases h1 : price * (qty : ℚ) > TOTAL_CAPITAL - used_capital p + BUY_EPS
    · rw [if_pos h1]; exact ⟨hnd, hent, hused⟩
    · rw [if_neg h1]
      by_cases h2 : qty ≤ 0
      · rw [if_pos h2]; exact ⟨hnd, hent, hused⟩
      · rw [if_neg h2]
        refine ⟨dict_keys_insert_nodup _ _ _ hnd, ?_, ?_⟩
        · intro kv hkv
          rcases mem_dict_insert _ _ _ kv hkv with rfl | hm
          · exact ⟨by dsimp only; omega, hp⟩
          · exact hent kv hm
        · rw [used_capital_insert]
          have hlc := lookup_cost_nonneg t p hent
          have hinv : price * (qty : ℚ) ≤
              TOTAL_CAPITAL - used_capital p + BUY_EPS := not_lt.mp h1
          have hcost : entry_cost ⟨price, qty⟩ = price * (qty : ℚ) := rfl
          linarith
  | sell s qty hq =>
    unfold enter_sell
    by_cases h0 : s = ""
    · rw [if_pos h0]; exact ⟨hnd, hent, hused⟩
    · rw [if_neg h0]
      cases hl : dict_lookup s p with
      | none => exact ⟨hnd, hent, hused⟩
      | some e =>
        dsimp only
        have hme := dict_lookup_mem s e p hl
        have hee := hent _ hme
        by_cases hcond : qty ≤ 0 ∨ e.quantity < qty
        · rw [if_pos hcond]; exact ⟨hnd, hent, hused⟩
        · rw [if_neg hcond]
          by_cases hz : e.quantity - qty = 0
          · rw [if_pos hz]
            refine ⟨dict_keys_erase_nodup s p hnd, ?_, ?_⟩
            · intro kv hkv
              exact hent kv (List.mem_of_mem_filter hkv)
            · refine le_trans (used_capital_erase_le s p ?_) hused
              intro kv hkv
              have h := hent kv hkv
              exact mul_nonneg h.2
                (by exact_mod_cast le_trans zero_le_one h.1)
          · rw [if_neg hz]
            refine ⟨dict_keys_insert_nodup _ _ _ hnd, ?_, ?_⟩
            · intro kv hkv
              rcases mem_dict_insert _ _ _ kv hkv with rfl | hm
              · exact ⟨by dsimp only; omega, hee.2⟩
              · exact hent kv hm
            · rw [used_capital_insert]
              have hqpos : (0 : ℚ) ≤ (qty : ℚ) := by exact_mod_cast hq
              have hlc : lookup_cost s p = entry_cost e := by
                unfold lookup_cost
                rw [hl]
              have hnew : entry_cost ⟨e.entry_price, e.quantity - qty⟩ =
                  entry_cost e - e.entry_price * (qty : ℚ) := by
                unfold entry_cost
                push_cast
                ring
              have hpq : 0 ≤ e.entry_price * (qty : ℚ) :=
                mul_nonneg hee.2 hqpos
              rw [hlc, hnew]
              linarith

/-- Every reachable portfolio satisfies the inductive invariant. -/
theorem reachable_ok (p : List (String × Entry)) (h : Reachable p) :
    portfolio_ok p := by
  unfold Reachable at h
  induction h with
  | refl =>
    exact ⟨by simp [dict_keys], by simp,
      by norm_num [used_capital, TOTAL_CAPITAL, BUY_EPS]⟩
  | tail _ hstep ih => exact step_preserves_ok _ _ ih hstep

/-- The portfolio after buying one share priced `TOTAL_CAPITAL + 1e-6`
from the empty portfolio. -/
def over_portfolio : List (String × Entry) :=
  [("RELIANCE.NS", ⟨1000000 + 1/1000000, 1⟩)]

/-- C9 counterexample: the buy handler's `1e-6` slack admits a buy whose
cost exceeds the whole capital, so a reachable portfolio has used
capital strictly above `TOTAL_CAPITAL`. -/
theorem claim_C9_cex :
    Reachable over_portfolio ∧
    TOTAL_CAPITAL < used_capital over_portfolio := by
  constructor
  · have heq : enter_buy [] "RELIANCE.NS" (1000000 + 1/1000000) 1 =
        over_portfolio := by
      unfold enter_buy over_portfolio
      rw [if_neg (by norm_num [used_capital, TOTAL_CAPITAL, BUY_EPS]),
        if_neg (by norm_num)]
      rfl
    have hstep : UIStep [] over_portfolio :=
      heq ▸ UIStep.buy [] "RELIANCE.NS" (1000000 + 1/1000000) 1
        (by norm_num) (by norm_num)
    exact Relation.ReflTransGen.single hstep
  · norm_num [used_capital, over_portfolio, entry_cost, TOTAL_CAPITAL]

/-- C9 (amended): every reachable portfolio keeps all quantities at
least 1 and its used capital at most `TOTAL_CAPITAL + 1e-6` (the buy
check tolerates up to `1e-6` above the remaining capital); a buy is
rejected when its cost exceeds the remaining capital by more than
`1e-6` or its quantity is not positive; a sell is rejected when its
quantity is not positive or exceeds the holding; and a sell that brings
a holding to exactly 0 removes the entry. -/
theorem claim_C9_amended :
    (∀ p, Reachable p →
      (∀ kv ∈ p, 1 ≤ kv.2.quantity) ∧
      used_capital p ≤ TOTAL_CAPITAL + BUY_EPS) ∧
    (∀ (p : List (String × Entry)) (t : String) (price : ℚ) (qty : ℤ),
      price * (qty : ℚ) > TOTAL_CAPITAL - used_capital p + BUY_EPS →
      enter_buy p t price qty = p) ∧
    (∀ (p : List (String × Entry)) (t : String) (price : ℚ) (qty : ℤ),
      qty ≤ 0 → enter_buy p t price qty = p) ∧
    (∀ (p : List (String × Entry)) (s : String) (qty : ℤ),
      qty ≤ 0 → enter_sell p s qty = p) ∧
    (∀ (p : List (String × Entry)) (s : String) (qty : ℤ) (e : Entry),
      dict_lookup s p = some e → e.quantity < qty →
      enter_sell p s qty = p) ∧
    (∀ (p : List (String × Entry)) (s : String) (qty : ℤ) (e : Entry),
      s ≠ "" → dict_lookup s p = some e → 0 < qty → qty = e.quantity →
      dict_lookup s (enter_sell p s qty) = none) := by
  refine ⟨?_, ?_, ?_, ?_, ?_, ?_⟩
  · intro p h
    obtain ⟨_, hent, hused⟩ := reachable_ok p h
    exact ⟨fun kv hkv => (hent kv hkv).1, hused⟩
  · intro p t price qty h
    unfold enter_buy
    rw [if_pos h]
  · intro p t price qty h
    unfold enter_buy
    by_cases h1 : price * (qty : ℚ) > TOTAL_CAPITAL - used_capital p + BUY_EPS
    · rw [if_pos h1]
    · rw [if_neg h1, if_pos h]
  · intro p s qty h
    unfold enter_sell
    by_cases h0 : s = ""
    · rw [if_pos h0]
    · rw [if_neg h0]
      cases hl : dict_lookup s p with
      | none => rfl
      | some e =>
        dsimp only
        rw [if_pos (Or.inl h)]
  · intro p s qty e hl h
    unfold enter_sell
    by_cases h0 : s = ""
    · rw [if_pos h0]
    · rw [if_neg h0, hl]
      dsimp only
      rw [if_pos (Or.inr h)]
  · intro p s qty e h0 hl hpos hq
    unfold enter_sell
    rw [if_neg h0, hl]
    dsimp only
    rw [if_neg (by push_neg; exact ⟨by omega, by omega⟩), if_pos (by omega)]
    exact dict_lookup_erase s p

/-- C9 witness: each amended conjunct at a concrete input — the empty
portfolio satisfies the capital bound; an unaffordable buy, a
zero-quantity buy, a zero-quantity sell and an oversized sell leave the
portfolio unchanged; selling a full holding removes its entry. -/
theorem claim_C9_witness :
    used_capital [] ≤ TOTAL_CAPITAL + BUY_EPS ∧
    enter_buy [] "TCS.NS" 2000000 1 = [] ∧
    enter_buy [] "TCS.NS" 100 0 = [] ∧
    enter_sell [("TCS.NS", ⟨100, 2⟩)] "TCS.NS" 0 = [("TCS.NS", ⟨100, 2⟩)] ∧
    enter_sell [("TCS.NS", ⟨100, 2⟩)] "TCS.NS" 3 = [("TCS.NS", ⟨100, 2⟩)] ∧
    dict_lookup "TCS.NS" (enter_sell [("TCS.NS", ⟨100, 2⟩)] "TCS.NS" 2) = none :=
  ⟨(claim_C9_amended.1 [] Relation.ReflTransGen.refl).2,
   claim_C9_amended.2.1 [] "TCS.NS" 2000000 1
     (by norm_num [used_capital, TOTAL_CAPITAL, BUY_EPS]),
   claim_C9_amended.2.2.1 [] "TCS.NS" 100 0 (le_refl 0),
   claim_C9_amended.2.2.2.1 [("TCS.NS", ⟨100, 2⟩)] "TCS.NS" 0 (le_refl 0),
   claim_C9_amended.2.2.2.2.1 [("TCS.NS", ⟨100, 2⟩)] "TCS.NS" 3 ⟨100, 2⟩
     (by simp [dict_lookup]) (by norm_num),
   claim_C9_amended.2.2.2.2.2 [("TCS.NS", ⟨100, 2⟩)] "TCS.NS" 2 ⟨100, 2⟩
     (by simp) (by simp [dict_lookup]) (by norm_num) (by norm_num)⟩

end Nifty
